import Mathlib

/-!
Verification of the metrics-computation core of the Sleep Tracker
(`src/main.rs`).  The embedding models Rust `i32` as `Int`, Rust `f64` as
`ℚ` (exact arithmetic), and Rust `&str` as `List Char`.  Every definition
below transcribes the corresponding Rust function.
-/

/-- The `Answer` struct of `main.rs`: one sleep tracking entry. -/
structure Answer where
  id : Int
  entry_date : List Char
  bedtime : List Char
  wake_time_target : List Char
  wake_time_actual : List Char
  notes : List Char
  nap_minutes : Int
  sleep_quality_score : Int
  total_sleep_minutes : Int
  awake_minutes : Int
  sleep_latency_minutes : Int
  wake_count : Int

/-- Rust `hhmm.split(':').collect::<Vec<&str>>()`: split a character list on
the colon separator.  An empty string yields one empty component, matching
Rust `str::split` semantics. -/
def splitOnColon : List Char → List (List Char)
  | [] => [[]]
  | c :: rest =>
    if c = ':' then [] :: splitOnColon rest
    else
      match splitOnColon rest with
      | [] => [[c]]
      | g :: gs => (c :: g) :: gs

/-- Helper for `parse_i32`: accumulate a run of ASCII digits; fails on any
non-digit character. -/
def parseNatDigits : List Char → Nat → Option Nat
  | [], acc => some acc
  | c :: cs, acc =>
    if c.isDigit then parseNatDigits cs (acc * 10 + (c.toNat - 48)) else none

/-- Rust `str::parse::<i32>()`: an optional sign followed by at least one
ASCII digit, rejecting values outside the `i32` range. -/
def parse_i32 (s : List Char) : Option Int :=
  match s with
  | [] => none
  | '+' :: rest =>
    match rest with
    | [] => none
    | _ => (parseNatDigits rest 0).bind fun n =>
        if n ≤ 2147483647 then some (n : Int) else none
  | '-' :: rest =>
    match rest with
    | [] => none
    | _ => (parseNatDigits rest 0).bind fun n =>
        if n ≤ 2147483648 then some (-(n : Int)) else none
  | _ => (parseNatDigits s 0).bind fun n =>
      if n ≤ 2147483647 then some (n : Int) else none

/-- `fn to_minutes(hhmm: &str) -> i32` of `main.rs`: split on the colon;
with exactly two parts, parse each with `unwrap_or(0)` and return
`hours * 60 + minutes`; otherwise return `0`. -/
def to_minutes (hhmm : List Char) : Int :=
  match splitOnColon hhmm with
  | [hours_str, minutes_str] =>
    (parse_i32 hours_str).getD 0 * 60 + (parse_i32 minutes_str).getD 0
  | _ => 0

/-- `fn calc_window(bedtime: &str, wake_target: &str) -> i32` of `main.rs`. -/
def calc_window (bedtime wake_target : List Char) : Int :=
  let bedtime_minutes := to_minutes bedtime
  let wake_time_minutes := to_minutes wake_target
  if wake_time_minutes ≤ bedtime_minutes then
    wake_time_minutes + 24 * 60 - bedtime_minutes
  else
    wake_time_minutes - bedtime_minutes

/-- Rust `f64::round`: round to the nearest integer, ties away from zero. -/
def rustRound (q : ℚ) : ℤ :=
  if 0 ≤ q then ⌊q + 1 / 2⌋ else -⌊-q + 1 / 2⌋

/-- `fn round_to_2_sig_figs(value: f64) -> f64` of `main.rs`:
`scale = floor(log10(|value|))`, `factor = 10^(1 - scale)`, then
`(value * factor).round() / factor`, with an explicit guard at zero. -/
def round_to_2_sig_figs (value : ℚ) : ℚ :=
  if value = 0 then 0
  else
    let scale : ℤ := Int.log 10 |value|
    let factor : ℚ := (10 : ℚ) ^ (1 - scale)
    ((rustRound (value * factor) : ℚ)) / factor

/-- `fn calc_efficiency(sleep: i32, awake: i32, latency: i32) -> f64` of
`main.rs`, with the `i32` sum `sleep + awake + latency` taken over
unbounded integers.  `calc_efficiency_wrapping` below makes the
release-mode `i32` wrap-around of that sum explicit; the two agree
whenever the sum stays in `i32` range. -/
def calc_efficiency (sleep awake latency : Int) : ℚ :=
  let time_in_bed := sleep + awake + latency
  if time_in_bed = 0 then 0
  else round_to_2_sig_figs ((sleep : ℚ) / (time_in_bed : ℚ) * 100)

/-- Two's-complement wrap-around of a Rust `i32` arithmetic result in
release builds: reduce into `[-2^31, 2^31)`. -/
def wrap32 (n : Int) : Int :=
  (n + 2147483648) % 4294967296 - 2147483648

/-- `fn calc_efficiency` of `main.rs` with the release-mode `i32`
semantics of `sleep + awake + latency` made explicit: each of the two
additions wraps to the 32-bit two's-complement range. -/
def calc_efficiency_wrapping (sleep awake latency : Int) : ℚ :=
  let time_in_bed := wrap32 (wrap32 (sleep + awake) + latency)
  if time_in_bed = 0 then 0
  else round_to_2_sig_figs ((sleep : ℚ) / (time_in_bed : ℚ) * 100)

/-- Per-record efficiency of an `Answer`, as used by the aggregation
functions in `main.rs`. -/
def entryEfficiency (e : Answer) : ℚ :=
  calc_efficiency e.total_sleep_minutes e.awake_minutes e.sleep_latency_minutes

/-- `fn calculate_average_efficiency(entries: &[Answer]) -> f64` of
`main.rs`: sum of per-record efficiencies divided by the record count,
`0.0` on the empty slice. -/
def calculate_average_efficiency (entries : List Answer) : ℚ :=
  if entries.isEmpty then 0
  else (entries.map entryEfficiency).sum / (entries.length : ℚ)

/-- `fn calculate_average_quality(entries: &[Answer]) -> f64` of `main.rs`. -/
def calculate_average_quality (entries : List Answer) : ℚ :=
  if entries.isEmpty then 0
  else (((entries.map (fun e => e.sleep_quality_score)).sum : ℤ) : ℚ) / (entries.length : ℚ)

/-- `fn calculate_average_sleep_hours(entries: &[Answer]) -> f64` of
`main.rs`. -/
def calculate_average_sleep_hours (entries : List Answer) : ℚ :=
  if entries.isEmpty then 0
  else (((entries.map (fun e => e.total_sleep_minutes)).sum : ℤ) : ℚ) / (entries.length : ℚ) / 60

/-- Modelled from the spec: `averageSleepHoursIncludingNaps(records)` —
"mean of (total night-sleep + nap minutes), divided by 60. Returns 0 for
empty input."  No such function exists in `main.rs`; this definition
follows the spec's words (§4.2), mirroring the shape of
`calculate_average_sleep_hours`. -/
def averageSleepHoursIncludingNaps (entries : List Answer) : ℚ :=
  if entries.isEmpty then 0
  else (((entries.map (fun e => e.total_sleep_minutes + e.nap_minutes)).sum : ℤ) : ℚ) / (entries.length : ℚ) / 60

/-- Modelled from the spec: "computing efficiency on pooled totals", the
comparator of §4.2's note — `calc_efficiency` applied once to the pooled
sums of sleep, awake and latency minutes. -/
def pooledEfficiency (entries : List Answer) : ℚ :=
  calc_efficiency
    ((entries.map (fun e => e.total_sleep_minutes)).sum)
    ((entries.map (fun e => e.awake_minutes)).sum)
    ((entries.map (fun e => e.sleep_latency_minutes)).sum)

/-! ### Helper lemmas -/

/-- A concrete all-zero record, used to instantiate universally quantified
statements. -/
def zeroAnswer : Answer :=
  ⟨0, [], [], [], [], [], 0, 0, 0, 0, 0, 0⟩

/-- A record with 874 sleep minutes, 126 awake minutes, no latency. -/
def ansA : Answer :=
  ⟨0, [], [], [], [], [], 0, 0, 874, 126, 0, 0⟩

/-- A record with 864 sleep minutes, 136 awake minutes, no latency. -/
def ansB : Answer :=
  ⟨0, [], [], [], [], [], 0, 0, 864, 136, 0, 0⟩

theorem intLog10_eq {v : ℚ} {s : ℤ} (hv : 0 < v) (hl : (10 : ℚ) ^ s ≤ v)
    (hu : v < (10 : ℚ) ^ (s + 1)) : Int.log 10 v = s := by
  have h1 : s ≤ Int.log 10 v := by
    rw [← Int.zpow_le_iff_le_log (by norm_num) hv]
    exact_mod_cast hl
  have h2 : Int.log 10 v < s + 1 := by
    rw [← Int.lt_zpow_iff_log_lt (by norm_num) hv]
    exact_mod_cast hu
  omega

theorem rustRound_eval {q : ℚ} {z : ℤ} (h0 : 0 ≤ q) (h1 : (z : ℚ) ≤ q + 1 / 2)
    (h2 : q + 1 / 2 < z + 1) : rustRound q = z := by
  rw [rustRound, if_pos h0]
  exact Int.floor_eq_iff.mpr ⟨h1, h2⟩

theorem round2sf_eval {v : ℚ} {s : ℤ} {n : ℤ} (hv : 0 < v)
    (hs : Int.log 10 v = s) (hn : rustRound (v * 10 ^ (1 - s)) = n) :
    round_to_2_sig_figs v = (n : ℚ) / 10 ^ (1 - s) := by
  rw [round_to_2_sig_figs, if_neg (ne_of_gt hv), abs_of_pos hv, hs]
  show ((rustRound (v * 10 ^ (1 - s)) : ℚ)) / 10 ^ (1 - s) = (n : ℚ) / 10 ^ (1 - s)
  rw [hn]

theorem round2sf_8734 : round_to_2_sig_figs (87.34 : ℚ) = 87 := by
  have hs : Int.log 10 (87.34 : ℚ) = 1 :=
    intLog10_eq (by norm_num) (by norm_num) (by norm_num)
  have hn : rustRound ((87.34 : ℚ) * 10 ^ (1 - (1 : ℤ))) = 87 := by
    apply rustRound_eval <;> norm_num
  rw [round2sf_eval (by norm_num) hs hn]
  norm_num

theorem round2sf_08734 : round_to_2_sig_figs (8.734 : ℚ) = 8.7 := by
  have hs : Int.log 10 (8.734 : ℚ) = 0 :=
    intLog10_eq (by norm_num) (by norm_num) (by norm_num)
  have hn : rustRound ((8.734 : ℚ) * 10 ^ (1 - (0 : ℤ))) = 87 := by
    apply rustRound_eval <;> norm_num
  rw [round2sf_eval (by norm_num) hs hn]
  norm_num

theorem round2sf_945 : round_to_2_sig_figs (94.5 : ℚ) = 95 := by
  have hs : Int.log 10 (94.5 : ℚ) = 1 :=
    intLog10_eq (by norm_num) (by norm_num) (by norm_num)
  have hn : rustRound ((94.5 : ℚ) * 10 ^ (1 - (1 : ℤ))) = 95 := by
    apply rustRound_eval <;> norm_num
  rw [round2sf_eval (by norm_num) hs hn]
  norm_num

theorem round2sf_9375 : round_to_2_sig_figs (93.75 : ℚ) = 94 := by
  have hs : Int.log 10 (93.75 : ℚ) = 1 :=
    intLog10_eq (by norm_num) (by norm_num) (by norm_num)
  have hn : rustRound ((93.75 : ℚ) * 10 ^ (1 - (1 : ℤ))) = 94 := by
    apply rustRound_eval <;> norm_num
  rw [round2sf_eval (by norm_num) hs hn]
  norm_num

theorem round2sf_874 : round_to_2_sig_figs (87.4 : ℚ) = 87 := by
  have hs : Int.log 10 (87.4 : ℚ) = 1 :=
    intLog10_eq (by norm_num) (by norm_num) (by norm_num)
  have hn : rustRound ((87.4 : ℚ) * 10 ^ (1 - (1 : ℤ))) = 87 := by
    apply rustRound_eval <;> norm_num
  rw [round2sf_eval (by norm_num) hs hn]
  norm_num

theorem round2sf_864 : round_to_2_sig_figs (86.4 : ℚ) = 86 := by
  have hs : Int.log 10 (86.4 : ℚ) = 1 :=
    intLog10_eq (by norm_num) (by norm_num) (by norm_num)
  have hn : rustRound ((86.4 : ℚ) * 10 ^ (1 - (1 : ℤ))) = 86 := by
    apply rustRound_eval <;> norm_num
  rw [round2sf_eval (by norm_num) hs hn]
  norm_num

theorem round2sf_869 : round_to_2_sig_figs (86.9 : ℚ) = 87 := by
  have hs : Int.log 10 (86.9 : ℚ) = 1 :=
    intLog10_eq (by norm_num) (by norm_num) (by norm_num)
  have hn : rustRound ((86.9 : ℚ) * 10 ^ (1 - (1 : ℤ))) = 87 := by
    apply rustRound_eval <;> norm_num
  rw [round2sf_eval (by norm_num) hs hn]
  norm_num

theorem calc_efficiency_zero_den {s a l : ℤ} (h : s + a + l = 0) :
    calc_efficiency s a l = 0 := by
  simp only [calc_efficiency]
  rw [if_pos h]

theorem calc_efficiency_of_ne {s a l : ℤ} (h : s + a + l ≠ 0) :
    calc_efficiency s a l =
      round_to_2_sig_figs ((s : ℚ) / ((s + a + l : ℤ) : ℚ) * 100) := by
  simp only [calc_efficiency]
  rw [if_neg h]

theorem round2sf_nonneg {v : ℚ} (hv : 0 ≤ v) : 0 ≤ round_to_2_sig_figs v := by
  rcases eq_or_lt_of_le hv with h | h
  · rw [round_to_2_sig_figs, if_pos h.symm]
  · rw [round_to_2_sig_figs, if_neg (ne_of_gt h), abs_of_pos h]
    show (0 : ℚ) ≤ ((rustRound (v * 10 ^ (1 - Int.log 10 v)) : ℚ)) / 10 ^ (1 - Int.log 10 v)
    have hf : (0 : ℚ) < 10 ^ (1 - Int.log 10 v) := zpow_pos (by norm_num) _
    have hx : 0 ≤ v * 10 ^ (1 - Int.log 10 v) := by positivity
    have hr : 0 ≤ rustRound (v * 10 ^ (1 - Int.log 10 v)) := by
      rw [rustRound, if_pos hx]
      exact Int.floor_nonneg.mpr (by linarith)
    exact div_nonneg (by exact_mod_cast hr) hf.le

theorem round2sf_le_100 {v : ℚ} (h0 : 0 ≤ v) (h100 : v ≤ 100) :
    round_to_2_sig_figs v ≤ 100 := by
  rcases eq_or_lt_of_le h0 with h | h
  · rw [round_to_2_sig_figs, if_pos h.symm]
    norm_num
  · rw [round_to_2_sig_figs, if_neg (ne_of_gt h), abs_of_pos h]
    show ((rustRound (v * 10 ^ (1 - Int.log 10 v)) : ℚ)) / 10 ^ (1 - Int.log 10 v) ≤ 100
    have hfpos : (0 : ℚ) < 10 ^ (1 - Int.log 10 v) := zpow_pos (by norm_num) _
    have hx0 : 0 ≤ v * 10 ^ (1 - Int.log 10 v) := by positivity
    by_cases hs : Int.log 10 v ≤ 1
    · have hu : v < (10 : ℚ) ^ (Int.log 10 v + 1) := by
        have h2 := Int.lt_zpow_succ_log_self (b := 10) (by norm_num) v
        exact_mod_cast h2
      have hx : v * 10 ^ (1 - Int.log 10 v) < 100 := by
        have h1 : v * 10 ^ (1 - Int.log 10 v) <
            (10 : ℚ) ^ (Int.log 10 v + 1) * 10 ^ (1 - Int.log 10 v) :=
          mul_lt_mul_of_pos_right hu hfpos
        have h2 : (10 : ℚ) ^ (Int.log 10 v + 1) * 10 ^ (1 - Int.log 10 v) = 100 := by
          rw [← zpow_add₀ (by norm_num : (10 : ℚ) ≠ 0)]
          have h3 : Int.log 10 v + 1 + (1 - Int.log 10 v) = 2 := by ring
          rw [h3]
          norm_num
        linarith
      have hN : rustRound (v * 10 ^ (1 - Int.log 10 v)) ≤ 100 := by
        rw [rustRound, if_pos hx0]
        have h4 : ⌊v * 10 ^ (1 - Int.log 10 v) + 1 / 2⌋ < 101 :=
          Int.floor_lt.mpr (by push_cast; linarith)
        omega
      have hN0 : 0 ≤ rustRound (v * 10 ^ (1 - Int.log 10 v)) := by
        rw [rustRound, if_pos hx0]
        exact Int.floor_nonneg.mpr (by linarith)
      rw [div_eq_mul_inv, ← zpow_neg]
      have hexp : -(1 - Int.log 10 v) = Int.log 10 v - 1 := by ring
      rw [hexp]
      have hfle : (10 : ℚ) ^ (Int.log 10 v - 1) ≤ 1 :=
        zpow_le_one_of_nonpos₀ (by norm_num) (by omega)
      have hNq : ((rustRound (v * 10 ^ (1 - Int.log 10 v)) : ℚ)) ≤ 100 := by
        exact_mod_cast hN
      have hNq0 : (0 : ℚ) ≤ ((rustRound (v * 10 ^ (1 - Int.log 10 v)) : ℚ)) := by
        exact_mod_cast hN0
      calc ((rustRound (v * 10 ^ (1 - Int.log 10 v)) : ℚ)) * 10 ^ (Int.log 10 v - 1)
          ≤ 100 * 1 := by
            apply mul_le_mul hNq hfle _ (by norm_num)
            positivity
        _ = 100 := by ring
    · have hls : (10 : ℚ) ^ (Int.log 10 v) ≤ v := by
        have h5 := Int.zpow_log_le_self (b := 10) (by norm_num) h
        exact_mod_cast h5
      have h100s : (100 : ℚ) ≤ 10 ^ (Int.log 10 v) := by
        have h6 : (10 : ℚ) ^ (2 : ℤ) ≤ 10 ^ (Int.log 10 v) :=
          zpow_le_zpow_right₀ (by norm_num) (by omega)
        have h7 : (10 : ℚ) ^ (2 : ℤ) = 100 := by norm_num
        linarith
      have hv100 : v = 100 := le_antisymm h100 (le_trans h100s hls)
      have hps : (10 : ℚ) ^ (Int.log 10 v) = 100 :=
        le_antisymm (le_trans hls (le_of_eq hv100)) h100s
      have hfac : (10 : ℚ) ^ (1 - Int.log 10 v) = 1 / 10 := by
        rw [sub_eq_add_neg, zpow_add₀ (by norm_num : (10 : ℚ) ≠ 0), zpow_neg, zpow_one, hps]
        norm_num
      rw [hfac, hv100]
      have h8 : rustRound ((100 : ℚ) * (1 / 10)) = 10 := by
        apply rustRound_eval <;> norm_num
      rw [h8]
      norm_num

/-! ### Claim theorems -/

/-- C1 (amended): `calc_efficiency` computes time-in-bed as
sleep + awake + latency, returns 0 when time-in-bed is zero, and otherwise
rounds `sleep / time-in-bed * 100` to 2 significant figures by the
documented scale/round/rescale algorithm; 87.34 rounds to 87 and 8.734
rounds to 8.7, but 94.5 rounds to 95 (the rounding primitive rounds ties
away from zero), not to 94 as claimed. -/
theorem C1_efficiency_rounding :
    (∀ s a l : ℤ, s + a + l = 0 → calc_efficiency s a l = 0) ∧
    (∀ s a l : ℤ, s + a + l ≠ 0 →
      calc_efficiency s a l =
        round_to_2_sig_figs ((s : ℚ) / ((s + a + l : ℤ) : ℚ) * 100)) ∧
    round_to_2_sig_figs 87.34 = 87 ∧
    round_to_2_sig_figs 8.734 = 8.7 ∧
    round_to_2_sig_figs 94.5 = 95 := by
  refine ⟨?_, ?_, round2sf_8734, round2sf_08734, round2sf_945⟩
  · intro s a l h
    exact calc_efficiency_zero_den h
  · intro s a l h
    exact calc_efficiency_of_ne h

/-- C1 counterexample: the claim says 94.5 rounds to 94; the embedded
rounding function yields 95. -/
theorem C1_cex_945_rounds_to_95 :
    round_to_2_sig_figs (94.5 : ℚ) = 95 ∧ (95 : ℚ) ≠ 94 :=
  ⟨round2sf_945, by norm_num⟩

/-- C1 witness: the quantified parts of `C1_efficiency_rounding` applied at
concrete inputs. -/
theorem C1_efficiency_rounding_witness :
    calc_efficiency 0 0 0 = 0 ∧
    calc_efficiency 450 20 10 =
      round_to_2_sig_figs ((450 : ℚ) / ((450 + 20 + 10 : ℤ) : ℚ) * 100) :=
  ⟨C1_efficiency_rounding.1 0 0 0 (by norm_num),
   C1_efficiency_rounding.2.1 450 20 10 (by norm_num)⟩

/-- C2: `calculate_average_efficiency` returns 0 on the empty collection,
the arithmetic mean of the already-rounded per-record efficiencies on a
non-empty collection, and 0 whenever every record has total-sleep, awake
and latency all zero. -/
theorem C2_average_efficiency :
    calculate_average_efficiency [] = 0 ∧
    (∀ l : List Answer, l ≠ [] →
      calculate_average_efficiency l =
        (l.map entryEfficiency).sum / (l.length : ℚ)) ∧
    (∀ l : List Answer, l ≠ [] →
      (∀ e ∈ l, e.total_sleep_minutes = 0 ∧ e.awake_minutes = 0 ∧
        e.sleep_latency_minutes = 0) →
      calculate_average_efficiency l = 0) := by
  refine ⟨rfl, ?_, ?_⟩
  · intro l hne
    cases l with
    | nil => exact absurd rfl hne
    | cons a t => simp [calculate_average_efficiency]
  · intro l hne hz
    have hsum : (l.map entryEfficiency).sum = 0 := by
      apply List.sum_eq_zero
      intro x hx
      rcases List.mem_map.mp hx with ⟨e, he, rfl⟩
      rcases hz e he with ⟨h1, h2, h3⟩
      show calc_efficiency e.total_sleep_minutes e.awake_minutes
        e.sleep_latency_minutes = 0
      rw [h1, h2, h3]
      exact calc_efficiency_zero_den (by norm_num)
    cases l with
    | nil => exact absurd rfl hne
    | cons a t =>
      simp only [calculate_average_efficiency]
      rw [if_neg (by simp), hsum]
      exact zero_div _

/-- C2 witness: `C2_average_efficiency` applied to the singleton all-zero
collection. -/
theorem C2_average_efficiency_witness :
    calculate_average_efficiency [zeroAnswer] =
      ([zeroAnswer].map entryEfficiency).sum /
        (([zeroAnswer] : List Answer).length : ℚ) ∧
    calculate_average_efficiency [zeroAnswer] = 0 :=
  ⟨C2_average_efficiency.2.1 [zeroAnswer] (List.cons_ne_nil _ _),
   C2_average_efficiency.2.2 [zeroAnswer] (List.cons_ne_nil _ _) (by
     intro e he
     rw [List.mem_singleton] at he
     subst he
     exact ⟨rfl, rfl, rfl⟩)⟩

/-- C3 (amended): `to_minutes` splits its input on the colon; with exactly
two components it returns `hours * 60 + minutes` where each component that
fails to parse contributes 0 (a failed hours component does not force the
whole result to 0); with any other number of components it returns 0.  The
concrete examples of the claim all hold. -/
theorem C3_to_minutes :
    (∀ s hs ms : List Char, splitOnColon s = [hs, ms] →
      to_minutes s = (parse_i32 hs).getD 0 * 60 + (parse_i32 ms).getD 0) ∧
    (∀ s : List Char, (splitOnColon s).length ≠ 2 → to_minutes s = 0) ∧
    to_minutes ['0', '7', ':', '3', '0'] = 450 ∧
    to_minutes ['0', '0', ':', '0', '0'] = 0 ∧
    to_minutes ['b', 'a', 'd'] = 0 ∧
    to_minutes ['1', ':', '2', ':', '3'] = 0 ∧
    to_minutes ['9', '9', ':', '9', '9'] = 6039 := by
  refine ⟨?_, ?_, by decide, by decide, by decide, by decide, by decide⟩
  · intro s hs1 ms1 hsplit
    simp only [to_minutes, hsplit]
  · intro s h
    simp only [to_minutes]
    split
    · rename_i heq
      exact absurd (by rw [heq] ; rfl) h
    · rfl

/-- C3 counterexample: `"x:30"` splits into exactly two components and its
hours component fails to parse, yet `to_minutes` returns 30, not 0 as the
claim requires. -/
theorem C3_cex_x30 :
    splitOnColon ['x', ':', '3', '0'] = [['x'], ['3', '0']] ∧
    parse_i32 ['x'] = none ∧
    to_minutes ['x', ':', '3', '0'] = 30 ∧ (30 : ℤ) ≠ 0 := by
  decide

/-- C3 witness: the quantified parts of `C3_to_minutes` applied at concrete
inputs. -/
theorem C3_to_minutes_witness :
    to_minutes ['0', '7', ':', '3', '0'] =
      (parse_i32 ['0', '7']).getD 0 * 60 + (parse_i32 ['3', '0']).getD 0 ∧
    to_minutes ['b', 'a', 'd'] = 0 :=
  ⟨C3_to_minutes.1 ['0', '7', ':', '3', '0'] ['0', '7'] ['3', '0'] (by decide),
   C3_to_minutes.2.1 ['b', 'a', 'd'] (by decide)⟩

/-- C4: `calc_window` converts both arguments to minute-of-day and, when
the wake minute is less than or equal to the bedtime minute, adds 1440
before subtracting; equal bedtime and wake time yield 1440, and the two
concrete examples of the claim hold. -/
theorem C4_calc_window :
    (∀ b w : List Char, to_minutes w ≤ to_minutes b →
      calc_window b w = to_minutes w + 1440 - to_minutes b) ∧
    (∀ b w : List Char, to_minutes b < to_minutes w →
      calc_window b w = to_minutes w - to_minutes b) ∧
    (∀ b w : List Char, to_minutes b = to_minutes w → calc_window b w = 1440) ∧
    calc_window ['2', '2', ':', '3', '0'] ['0', '7', ':', '0', '0'] = 510 ∧
    calc_window ['0', '7', ':', '0', '0'] ['2', '2', ':', '3', '0'] = 930 := by
  refine ⟨?_, ?_, ?_, by decide, by decide⟩
  · intro b w h
    simp only [calc_window]
    rw [if_pos h]
    norm_num
  · intro b w h
    simp only [calc_window]
    rw [if_neg (not_le.mpr h)]
  · intro b w h
    simp only [calc_window]
    rw [if_pos (le_of_eq h.symm)]
    omega

/-- C4 witness: `C4_calc_window`'s quantified parts applied at concrete
inputs. -/
theorem C4_calc_window_witness :
    calc_window ['2', '2', ':', '3', '0'] ['0', '7', ':', '0', '0'] =
      to_minutes ['0', '7', ':', '0', '0'] + 1440 -
        to_minutes ['2', '2', ':', '3', '0'] ∧
    calc_window ['0', '7', ':', '0', '0'] ['2', '2', ':', '3', '0'] =
      to_minutes ['2', '2', ':', '3', '0'] - to_minutes ['0', '7', ':', '0', '0'] ∧
    calc_window ['0', '8', ':', '0', '0'] ['0', '8', ':', '0', '0'] = 1440 :=
  ⟨C4_calc_window.1 _ _ (by decide),
   C4_calc_window.2.1 _ _ (by decide),
   C4_calc_window.2.2.1 ['0', '8', ':', '0', '0'] ['0', '8', ':', '0', '0'] rfl⟩

theorem calc_efficiency_450_20_10 : calc_efficiency 450 20 10 = 94 := by
  have h1 : calc_efficiency 450 20 10 = round_to_2_sig_figs 93.75 := by
    rw [calc_efficiency_of_ne (by norm_num)]
    norm_num
  rw [h1, round2sf_9375]

/-- C5 counterexample: `calc_efficiency 450 20 10` is 94, not 93 as the
claim states. -/
theorem C5_cex_not_93 : calc_efficiency 450 20 10 ≠ 93 := by
  rw [calc_efficiency_450_20_10]
  norm_num

/-- C5 (amended): `computeEfficiency(450, 20, 10)` returns 94.0
(450/480*100 = 93.75, which the documented 2-significant-figure rounding
takes to 94). -/
theorem C5_efficiency_example : calc_efficiency 450 20 10 = 94 :=
  calc_efficiency_450_20_10

theorem eff_ansA : entryEfficiency ansA = 87 := by
  show calc_efficiency 874 126 0 = 87
  have h1 : calc_efficiency 874 126 0 = round_to_2_sig_figs 87.4 := by
    rw [calc_efficiency_of_ne (by norm_num)]
    norm_num
  rw [h1, round2sf_874]

theorem eff_ansB : entryEfficiency ansB = 86 := by
  show calc_efficiency 864 136 0 = 86
  have h1 : calc_efficiency 864 136 0 = round_to_2_sig_figs 86.4 := by
    rw [calc_efficiency_of_ne (by norm_num)]
    norm_num
  rw [h1, round2sf_864]

theorem pooled_AB : pooledEfficiency [ansA, ansB] = 87 := by
  have h0 : pooledEfficiency [ansA, ansB] = calc_efficiency 1738 262 0 := by
    norm_num [pooledEfficiency, ansA, ansB]
  have h1 : calc_efficiency 1738 262 0 = round_to_2_sig_figs 86.9 := by
    rw [calc_efficiency_of_ne (by norm_num)]
    norm_num
  rw [h0, h1, round2sf_869]

/-- C6: because each record's efficiency is rounded to 2 significant
figures before averaging, there is a collection of records on which
`calculate_average_efficiency` differs from the efficiency computed once
on the pooled totals. -/
theorem C6_round_then_average_differs :
    ∃ l : List Answer, calculate_average_efficiency l ≠ pooledEfficiency l := by
  refine ⟨[ansA, ansB], ?_⟩
  have havg : calculate_average_efficiency [ansA, ansB] = 173 / 2 := by
    simp only [calculate_average_efficiency]
    rw [if_neg (by simp)]
    simp [eff_ansA, eff_ansB]
    norm_num
  rw [havg, pooled_AB]
  norm_num

/-- C7: `averageSleepHoursIncludingNaps` (modelled from the spec) returns
0 on the empty collection, the mean of (night-sleep + nap minutes) over 60
otherwise, and dominates `calculate_average_sleep_hours` whenever every
nap count is non-negative. -/
theorem C7_naps_monotone :
    averageSleepHoursIncludingNaps [] = 0 ∧
    (∀ l : List Answer, l ≠ [] →
      averageSleepHoursIncludingNaps l * 60 * (l.length : ℚ) =
        (((l.map (fun e => e.total_sleep_minutes + e.nap_minutes)).sum : ℤ) : ℚ)) ∧
    (∀ l : List Answer, (∀ e ∈ l, 0 ≤ e.nap_minutes) →
      calculate_average_sleep_hours l ≤ averageSleepHoursIncludingNaps l) := by
  refine ⟨rfl, ?_, ?_⟩
  · intro l hne
    cases l with
    | nil => exact absurd rfl hne
    | cons a t =>
      simp only [averageSleepHoursIncludingNaps]
      rw [if_neg (by simp)]
      have hlen : (((a :: t : List Answer)).length : ℚ) ≠ 0 :=
        Nat.cast_ne_zero.mpr (Nat.succ_ne_zero _)
      field_simp
      ring
  · intro l hnap
    cases l with
    | nil => simp [calculate_average_sleep_hours, averageSleepHoursIncludingNaps]
    | cons a t =>
      simp only [calculate_average_sleep_hours, averageSleepHoursIncludingNaps]
      rw [if_neg (by simp), if_neg (by simp)]
      have hsum : ((a :: t).map (fun e => e.total_sleep_minutes)).sum ≤
          ((a :: t).map (fun e => e.total_sleep_minutes + e.nap_minutes)).sum := by
        apply List.sum_le_sum
        intro e he
        have := hnap e he
        omega
      have hlen : (0 : ℚ) < (((a :: t : List Answer)).length : ℚ) := by
        exact_mod_cast List.length_pos.mpr (List.cons_ne_nil a t)
      rw [div_le_div_iff_of_pos_right (by norm_num : (0 : ℚ) < 60), div_le_div_iff_of_pos_right hlen]
      exact_mod_cast hsum

/-- C7 witness: `C7_naps_monotone` applied to the singleton `[ansA]`. -/
theorem C7_naps_monotone_witness :
    averageSleepHoursIncludingNaps [ansA] * 60 *
        (([ansA] : List Answer).length : ℚ) =
      ((([ansA].map (fun e => e.total_sleep_minutes + e.nap_minutes)).sum : ℤ) : ℚ) ∧
    calculate_average_sleep_hours [ansA] ≤ averageSleepHoursIncludingNaps [ansA] :=
  ⟨C7_naps_monotone.2.1 [ansA] (List.cons_ne_nil _ _),
   C7_naps_monotone.2.2 [ansA] (by
     intro e he
     rw [List.mem_singleton] at he
     subst he
     exact le_refl _)⟩

theorem calc_efficiency_nonneg_in_range :
    ∀ s a l : ℤ, 0 ≤ s → 0 ≤ a → 0 ≤ l →
      0 ≤ calc_efficiency s a l ∧ calc_efficiency s a l ≤ 100 := by
  intro s a l hs ha hl
  by_cases h : s + a + l = 0
  · rw [calc_efficiency_zero_den h]
    norm_num
  · have htib : (0 : ℤ) < s + a + l := by omega
    rw [calc_efficiency_of_ne h]
    have htibq : (0 : ℚ) < ((s + a + l : ℤ) : ℚ) := by exact_mod_cast htib
    have hv0 : 0 ≤ (s : ℚ) / ((s + a + l : ℤ) : ℚ) * 100 := by
      apply mul_nonneg _ (by norm_num)
      apply div_nonneg _ htibq.le
      exact_mod_cast hs
    have hv100 : (s : ℚ) / ((s + a + l : ℤ) : ℚ) * 100 ≤ 100 := by
      have hle : (s : ℚ) ≤ ((s + a + l : ℤ) : ℚ) := by
        exact_mod_cast (by omega : s ≤ s + a + l)
      have hdiv : (s : ℚ) / ((s + a + l : ℤ) : ℚ) ≤ 1 := (div_le_one htibq).mpr hle
      linarith
    exact ⟨round2sf_nonneg hv0, round2sf_le_100 hv0 hv100⟩

theorem round2sf_neg100 : round_to_2_sig_figs (-100 : ℚ) = -100 := by
  rw [round_to_2_sig_figs, if_neg (by norm_num)]
  have habs : |(-100 : ℚ)| = 100 := by norm_num
  rw [habs]
  have hs : Int.log 10 (100 : ℚ) = 2 :=
    intLog10_eq (by norm_num) (by norm_num) (by norm_num)
  rw [hs]
  show ((rustRound ((-100 : ℚ) * 10 ^ (1 - (2 : ℤ))) : ℚ)) / 10 ^ (1 - (2 : ℤ)) = -100
  have h1 : ((-100 : ℚ) * 10 ^ (1 - (2 : ℤ))) = -10 := by norm_num
  rw [h1]
  have h2 : rustRound (-10 : ℚ) = -10 := by
    rw [rustRound, if_neg (by norm_num)]
    have h3 : ⌊-(-10 : ℚ) + 1 / 2⌋ = 10 := Int.floor_eq_iff.mpr (by norm_num)
    rw [h3]
  rw [h2]
  norm_num

/-- C8 counterexample: at (2^30, 2^30, 2^30) — a reachable non-negative
input — the release-mode `i32` sum wraps to -2^30, and `calc_efficiency`
returns -100, outside the claimed 0-100 range. -/
theorem C8_cex_overflow :
    calc_efficiency_wrapping 1073741824 1073741824 1073741824 = -100 ∧
    ¬ (0 ≤ calc_efficiency_wrapping 1073741824 1073741824 1073741824) := by
  have htib : wrap32 (wrap32 (1073741824 + 1073741824) + 1073741824) =
      -1073741824 := by
    unfold wrap32
    decide
  have heq : calc_efficiency_wrapping 1073741824 1073741824 1073741824 =
      round_to_2_sig_figs (((1073741824 : ℤ) : ℚ) / ((-1073741824 : ℤ) : ℚ) * 100) := by
    simp only [calc_efficiency_wrapping, htib]
    rw [if_neg (by norm_num)]
  have harg : (((1073741824 : ℤ) : ℚ) / ((-1073741824 : ℤ) : ℚ) * 100) = -100 := by
    norm_num
  have h100 : calc_efficiency_wrapping 1073741824 1073741824 1073741824 = -100 := by
    rw [heq, harg, round2sf_neg100]
  exact ⟨h100, by rw [h100] ; norm_num⟩

/-- C8 (amended): for non-negative sleep, awake and latency minutes whose
sum stays within the `i32` range, `calc_efficiency` — with the
release-mode wrapping of the `i32` sum made explicit — always lies
between 0 and 100. -/
theorem C8_efficiency_in_range_no_overflow :
    ∀ s a l : ℤ, 0 ≤ s → 0 ≤ a → 0 ≤ l → s + a + l ≤ 2147483647 →
      0 ≤ calc_efficiency_wrapping s a l ∧ calc_efficiency_wrapping s a l ≤ 100 := by
  intro s a l hs ha hl hbound
  have hw : wrap32 (wrap32 (s + a) + l) = s + a + l := by
    unfold wrap32
    omega
  have heq : calc_efficiency_wrapping s a l = calc_efficiency s a l := by
    simp only [calc_efficiency_wrapping, calc_efficiency, hw]
  rw [heq]
  exact calc_efficiency_nonneg_in_range s a l hs ha hl

/-- C8 witness: `C8_efficiency_in_range_no_overflow` at (450, 20, 10). -/
theorem C8_efficiency_in_range_no_overflow_witness :
    0 ≤ calc_efficiency_wrapping 450 20 10 ∧
    calc_efficiency_wrapping 450 20 10 ≤ 100 :=
  C8_efficiency_in_range_no_overflow 450 20 10 (by norm_num) (by norm_num)
    (by norm_num) (by norm_num)

/-- C9: `calculate_average_quality` is the arithmetic mean of the raw
quality scores with no rounding, `calculate_average_sleep_hours` is the
mean of total night-sleep minutes divided by 60 (naps excluded), and both
return 0 on the empty collection. -/
theorem C9_quality_and_duration :
    calculate_average_quality [] = 0 ∧
    calculate_average_sleep_hours [] = 0 ∧
    (∀ l : List Answer, l ≠ [] →
      calculate_average_quality l * (l.length : ℚ) =
        (((l.map (fun e => e.sleep_quality_score)).sum : ℤ) : ℚ)) ∧
    (∀ l : List Answer, l ≠ [] →
      calculate_average_sleep_hours l * 60 * (l.length : ℚ) =
        (((l.map (fun e => e.total_sleep_minutes)).sum : ℤ) : ℚ)) := by
  refine ⟨rfl, rfl, ?_, ?_⟩
  · intro l hne
    cases l with
    | nil => exact absurd rfl hne
    | cons a t =>
      simp only [calculate_average_quality]
      rw [if_neg (by simp)]
      have hlen : (((a :: t : List Answer)).length : ℚ) ≠ 0 :=
        Nat.cast_ne_zero.mpr (Nat.succ_ne_zero _)
      field_simp
  · intro l hne
    cases l with
    | nil => exact absurd rfl hne
    | cons a t =>
      simp only [calculate_average_sleep_hours]
      rw [if_neg (by simp)]
      have hlen : (((a :: t : List Answer)).length : ℚ) ≠ 0 :=
        Nat.cast_ne_zero.mpr (Nat.succ_ne_zero _)
      field_simp
      ring

/-- C9 witness: `C9_quality_and_duration` applied to the singleton
`[ansA]`. -/
theorem C9_quality_and_duration_witness :
    calculate_average_quality [ansA] * (([ansA] : List Answer).length : ℚ) =
      ((([ansA].map (fun e => e.sleep_quality_score)).sum : ℤ) : ℚ) ∧
    calculate_average_sleep_hours [ansA] * 60 * (([ansA] : List Answer).length : ℚ) =
      ((([ansA].map (fun e => e.total_sleep_minutes)).sum : ℤ) : ℚ) :=
  ⟨C9_quality_and_duration.2.2.1 [ansA] (List.cons_ne_nil _ _),
   C9_quality_and_duration.2.2.2 [ansA] (List.cons_ne_nil _ _)⟩

/-- C10: the core functions are total and absorb every degenerate input
into the sentinel 0: a time string that does not split into exactly two
parts yields 0, the rounding guard maps 0 to 0, a zero time-in-bed yields
efficiency 0, and each aggregate returns 0 on the empty collection. -/
theorem C10_never_fails :
    (∀ s : List Char, (splitOnColon s).length ≠ 2 → to_minutes s = 0) ∧
    round_to_2_sig_figs 0 = 0 ∧
    (∀ s a l : ℤ, s + a + l = 0 → calc_efficiency s a l = 0) ∧
    calculate_average_efficiency [] = 0 ∧
    calculate_average_quality [] = 0 ∧
    calculate_average_sleep_hours [] = 0 := by
  refine ⟨?_, by norm_num [round_to_2_sig_figs],
    fun s a l h => calc_efficiency_zero_den h, rfl, rfl, rfl⟩
  intro s h
  simp only [to_minutes]
  split
  · rename_i heq
    exact absurd (by rw [heq] ; rfl) h
  · rfl

/-- C10 witness: `C10_never_fails` applied at concrete degenerate
inputs. -/
theorem C10_never_fails_witness :
    to_minutes ['b', 'a', 'd'] = 0 ∧ calc_efficiency 0 0 0 = 0 :=
  ⟨C10_never_fails.1 ['b', 'a', 'd'] (by decide),
   C10_never_fails.2.2.1 0 0 0 (by norm_num)⟩
